import Mathlib

/-
Verification of the project-tracking domain model in src/Projet.py.

Modelling conventions:
* `datetime` values are modelled as whole day numbers (`Int`); the only
  arithmetic the source performs on them is `(date_fin - date_debut).days`,
  which at day granularity is plain integer subtraction.
* Python `float` fields (`budget`, `probabilite`) are never used in any
  arithmetic by the code under verification; they are modelled as `Rat`
  values carried around inertly.
* `Tache` objects form a heap-allocated object graph (dependencies are
  object references, the memo dict is keyed by object identity).  We model
  object identity by a `Nat` id together with an environment `Env`
  (association list from id to task record); a project's task list is the
  list of ids it owns, in insertion order.
* The recursive inner function `find_longest_path` of
  `Projet.calculer_chemin_critique` is modelled with explicit fuel (a bound
  on the number of evaluation steps of the recursion); `(none, memo)` means
  the bound was exhausted.  Python's recursion is unbounded, so "the Python
  call terminates" corresponds to "some fuel suffices", and a computation
  that exhausts every fuel is one that does not terminate.
* `Changement.date = datetime.now()` (a wall-clock read) is not modelled;
  no claim concerns the timestamp.
-/

set_option maxHeartbeats 1000000

structure Membre where
  nom : String
  role : String
  deriving DecidableEq

/-- A task of `Projet.py` (class `Tache`): dependencies are stored as the
ids of the referenced task objects, in declared (append) order. -/
structure Tache where
  nom : String
  description : String
  date_debut : Int
  date_fin : Int
  responsable : Membre
  statut : String
  dependances : List Nat
  deriving DecidableEq

structure Equipe where
  membres : List Membre
  deriving DecidableEq

structure Jalon where
  nom : String
  date : Int
  deriving DecidableEq

structure Risque where
  description : String
  probabilite : Rat
  impact : String
  deriving DecidableEq

/-- Class `Changement`: the `date = datetime.now()` field is a wall-clock
read and is not modelled. -/
structure Changement where
  description : String
  version : Nat
  deriving DecidableEq

/-- The three concrete `NotificationStrategy` subclasses; they are
stateless and differ only in the delivery-method tag of the printed line. -/
inductive NotificationStrategy where
  | email
  | sms
  | push
  deriving DecidableEq

structure NotificationContext where
  strategy : NotificationStrategy
  deriving DecidableEq

/-- Class `Projet`: fields in the order of `Projet.__init__`.  `taches` and
`chemin_critique` hold task ids (see the header comment on object
identity). -/
structure Projet where
  nom : String
  description : String
  date_debut : Int
  date_fin : Int
  budget : Rat
  taches : List Nat
  equipe : Equipe
  risques : List Risque
  jalons : List Jalon
  version : Nat
  changements : List Changement
  chemin_critique : List Nat
  notification_context : Option NotificationContext
  deriving DecidableEq

/-- `Projet.__init__`: empty collections, `version = 1`, no notification
context. -/
def projet_init (nom description : String) (date_debut date_fin : Int)
    (budget : Rat) : Projet :=
  { nom := nom
    description := description
    date_debut := date_debut
    date_fin := date_fin
    budget := budget
    taches := []
    equipe := { membres := [] }
    risques := []
    jalons := []
    version := 1
    changements := []
    chemin_critique := []
    notification_context := none }

/-- The heap of task objects: id to task record, object identity = id. -/
abbrev Env := List (Nat × Tache)

/-- The memo dict of `calculer_chemin_critique`, keyed by task identity;
value = (length, path of task ids). -/
abbrev Memo := List (Nat × (Int × List Nat))

def envLookup (tid : Nat) : Env → Option Tache
  | [] => none
  | (k, t) :: rest => if k = tid then some t else envLookup tid rest

def memoLookup (tid : Nat) : Memo → Option (Int × List Nat)
  | [] => none
  | (k, r) :: rest => if k = tid then some r else memoLookup tid rest

/-- Python exceptions raised by the modelled code.  The source defines no
exception class of its own (in particular no `CyclicDependencyError` and no
`UnknownDependencyError`); the only exception that can be raised by
`calculer_chemin_critique` besides `RecursionError` is the `ValueError`
of `max()` applied to an empty sequence. -/
inductive PyError where
  | valueErrorEmptyMax
  deriving DecidableEq

/-- Defunctionalized state of the recursive `find_longest_path`:
* `.task tid` is the call `find_longest_path(tache_tid, memo)`;
* `.deps tid rest max_length max_path` is the `for dep in tache.dependances`
  loop of that call, with `rest` the dependencies not yet processed and
  `(max_length, max_path)` the loop accumulators (initially `(0, [])`);
  when `rest` is exhausted it performs the post-loop code
  `total_length = max_length + (date_fin - date_debut).days;
   memo[tache] = (total_length, max_path + [tache])`. -/
inductive FindMode where
  | task (tid : Nat)
  | deps (tid : Nat) (rest : List Nat) (max_length : Int) (max_path : List Nat)
  deriving DecidableEq

/-- The task a `FindMode` state is computing the memo entry of. -/
def FindMode.tid : FindMode → Nat
  | .task t => t
  | .deps t _ _ _ => t

/-- Fuelled evaluator of `find_longest_path` (lines 164-178 of
`src/Projet.py`).  Each constructor-step of the Python recursion consumes
one unit of fuel; `(none, memo)` means the fuel bound was exhausted (the
memo accumulated so far is returned unchanged).  A dangling id (a `Tache`
reference that does not exist in the heap) is impossible in Python and the
evaluator gets stuck on it, returning `(none, memo)`. -/
def findFuel (env : Env) : Nat → FindMode → Memo → Option (Int × List Nat) × Memo
  | 0, _, memo => (none, memo)
  | fuel + 1, .task tid, memo =>
    match memoLookup tid memo with
    | some r => (some r, memo)
    | none =>
      match envLookup tid env with
      | none => (none, memo)
      | some tache =>
        if tache.dependances = [] then
          (some ((0 : Int), [tid]), (tid, ((0 : Int), [tid])) :: memo)
        else
          findFuel env fuel (.deps tid tache.dependances 0 []) memo
  | _ + 1, .deps tid [] max_length max_path, memo =>
    match envLookup tid env with
    | none => (none, memo)
    | some tache =>
      let total_length := max_length + (tache.date_fin - tache.date_debut)
      (some (total_length, max_path ++ [tid]),
        (tid, (total_length, max_path ++ [tid])) :: memo)
  | fuel + 1, .deps tid (dep :: deps) max_length max_path, memo =>
    match findFuel env fuel (.task dep) memo with
    | (none, memo2) => (none, memo2)
    | (some (dep_length, dep_path), memo2) =>
      if dep_length > max_length then
        findFuel env fuel (.deps tid deps dep_length dep_path) memo2
      else
        findFuel env fuel (.deps tid deps max_length max_path) memo2

/-- `find_longest_path(tache, memo)` itself (entry point of the recursion). -/
def find_longest_path (env : Env) (fuel : Nat) (tid : Nat) (memo : Memo) :
    Option (Int × List Nat) × Memo :=
  findFuel env fuel (.task tid) memo

/-- The list comprehension
`all_paths = [find_longest_path(tache, memo) for tache in self.taches]`
(line 181), threading the shared memo dict through the calls. -/
def all_paths_aux (env : Env) (fuel : Nat) :
    List Nat → Memo → Option (List (Int × List Nat)) × Memo
  | [], memo => (some [], memo)
  | t :: ts, memo =>
    match find_longest_path env fuel t memo with
    | (none, memo2) => (none, memo2)
    | (some r, memo2) =>
      match all_paths_aux env fuel ts memo2 with
      | (none, memo3) => (none, memo3)
      | (some rs, memo3) => (some (r :: rs), memo3)

/-- The accumulation performed by Python's `max(xs, key=lambda x: x[0])`
over a non-empty sequence: scan left to right, replacing the current
maximum only on a strictly greater key, hence keeping the first maximal
element.  (The same accumulation is performed by the `for dep in
tache.dependances` loop of `find_longest_path`.) -/
def pyfold_max : Int × List Nat → List (Int × List Nat) → Int × List Nat
  | acc, [] => acc
  | acc, x :: xs => if x.1 > acc.1 then pyfold_max x xs else pyfold_max acc xs

/-- Python's `max(xs, key=lambda x: x[0])`: `ValueError` (here `none`) on an
empty sequence, otherwise the first element with maximal key. -/
def pymax_by_fst : List (Int × List Nat) → Option (Int × List Nat)
  | [] => none
  | x :: xs => some (pyfold_max x xs)

/-- `Projet.calculer_chemin_critique` (lines 163-182), as a function of the
project's task-id list.  Outer `none` = the traversal exhausted the fuel
bound (the Python call does not return); `some (.error e)` = the call
raises exception `e`; `some (.ok path)` = the call returns normally having
computed `path` as the critical path. -/
def calculer_chemin_critique (env : Env) (fuel : Nat) (taches : List Nat) :
    Option (Except PyError (List Nat)) :=
  match all_paths_aux env fuel taches [] with
  | (none, _) => none
  | (some all_paths, _) =>
    match pymax_by_fst all_paths with
    | none => some (.error .valueErrorEmptyMax)
    | some best => some (.ok best.2)

/-- The method `Projet.calculer_chemin_critique` acting on the project
state: the single assignment it performs is
`self.chemin_critique = max(all_paths, key=lambda x: x[0])[1]`. -/
def calculer_chemin_critique_projet (env : Env) (fuel : Nat) (p : Projet) :
    Option (Except PyError Projet) :=
  match calculer_chemin_critique env fuel p.taches with
  | none => none
  | some (.error e) => some (.error e)
  | some (.ok path) => some (.ok { p with chemin_critique := path })

/-- Helper for building concrete `Tache` values: only the dates and the
dependency list matter to the critical-path computation. -/
def mkTache (date_debut date_fin : Int) (dependances : List Nat) : Tache :=
  { nom := ""
    description := ""
    date_debut := date_debut
    date_fin := date_fin
    responsable := { nom := "", role := "" }
    statut := ""
    dependances := dependances }

/-! ### Concrete environments used by the claim evaluations -/

/-- One dependency-free task spanning days 0..30 (a 30-day span, like
`Analyse des besoins`, Jan 1 to Jan 31). -/
def envNoDep : Env := [(0, mkTache 0 30 [])]

/-- The diamond of claim C2: A (id 0, days 0-10, no deps), B (id 1, 5 days,
dep A), C (id 2, 20 days, dep A), D (id 3, 1 day, deps B and C). -/
def envDiamond : Env :=
  [(0, mkTache 0 10 []),
   (1, mkTache 10 15 [0]),
   (2, mkTache 10 30 [0]),
   (3, mkTache 30 31 [1, 2])]

/-- Claim C1 (code_bug evaluation): the code memoizes `(0, [task])` for a
dependency-free task — length `0`, not the task's 30-day span; consequently
the critical-path length attributed to the task is `0`, not `30`. -/
theorem claim_C1_nodep_memoizes_zero :
    find_longest_path envNoDep 1 0 []
        = (some ((0 : Int), [0]), [(0, ((0 : Int), [0]))]) ∧
    memoLookup 0 (all_paths_aux envNoDep 2 [0] []).2 = some ((0 : Int), [0]) ∧
    ((0 : Int), ([0] : List Nat)) ≠ ((30 : Int), [0]) := by
  refine ⟨rfl, rfl, by decide⟩

/-- Claim C2 (code_bug evaluation): on the diamond A/B/C/D the code
memoizes `(21, [C, D])` for D — the root A's 10-day span is dropped (A was
memoized with length 0) and A itself is dropped from the path (its
zero-length result is never selected by the strict `>` loop) — whereas the
claim states `(31, [A, C, D])`. -/
theorem claim_C2_diamond_eval :
    memoLookup 3 (all_paths_aux envDiamond 10 [0, 1, 2, 3] []).2
        = some ((21 : Int), [2, 3]) ∧
    calculer_chemin_critique envDiamond 10 [0, 1, 2, 3] = some (.ok [2, 3]) ∧
    ((21 : Int), ([2, 3] : List Nat)) ≠ ((31 : Int), [0, 2, 3]) := by
  refine ⟨rfl, rfl, by decide⟩

/-- Claim C4 (amended): for every heap and every fuel bound, calling
`calculer_chemin_critique` on an empty task list runs the (empty) list
comprehension and then raises the `ValueError` of `max()` applied to an
empty sequence (line 182); it does not return an empty critical path. -/
theorem claim_C4_empty_raises_valueerror :
    ∀ (env : Env) (fuel : Nat),
      calculer_chemin_critique env fuel [] = some (.error .valueErrorEmptyMax) :=
  fun _ _ => rfl

/-- Claim C4 counterexample: on a concrete empty project the computation
raises `ValueError`; in particular it does not succeed with the empty
critical path the claim describes. -/
theorem claim_C4_cex_empty_is_error :
    calculer_chemin_critique [] 1 [] = some (.error .valueErrorEmptyMax) ∧
    some (Except.error PyError.valueErrorEmptyMax)
        ≠ some (Except.ok ([] : List Nat)) := by
  refine ⟨rfl, by simp⟩

/-- Heap for claim C5: task 5 exists as an object but is NOT in the
project's task collection; task 9 (registered) depends on it. -/
def envUnreg (a b c d : Int) : Env :=
  [(5, mkTache a b []), (9, mkTache c d [5])]

/-- Claim C5 counterexample: the project registers only task 9, whose
dependency (task 5) is absent from the project's task collection; the
computation succeeds — no exception of any kind is raised at computation
time (the source defines no `UnknownDependencyError`). -/
theorem claim_C5_cex_no_error :
    calculer_chemin_critique (envUnreg 0 7 0 3) 3 [9] = some (.ok [9]) ∧
    memoLookup 5 (all_paths_aux (envUnreg 0 7 0 3) 3 [9] []).2
        = some ((0 : Int), [5]) :=
  ⟨rfl, rfl⟩

/-- Claim C5 (amended): for all dates, a dependency on an unregistered task
is traversed exactly like a registered one — the computation succeeds and
the unregistered task even receives a memo entry; no error is raised,
neither at insertion time nor at computation time. -/
theorem claim_C5_unregistered_dep_traversed :
    ∀ (a b c d : Int),
      calculer_chemin_critique (envUnreg a b c d) 3 [9] = some (.ok [9]) ∧
      memoLookup 5 (all_paths_aux (envUnreg a b c d) 3 [9] []).2
          = some ((0 : Int), [5]) :=
  fun _ _ _ _ => ⟨rfl, rfl⟩

/-- The notification message built on line 161 (note: built after the
increment of `self.version`). -/
def message_changement (description : String) (v : Nat) : String :=
  s!"Changement enregistré: {description} (version {v})"

/-- `Projet.enregistrer_changement` (lines 157-161): build the `Changement`
with the pre-increment version, append it, increment `self.version` by one,
then notify.  The returned string is the message passed to `self.notifier`
(which broadcasts it to the team). -/
def enregistrer_changement (p : Projet) (description : String) :
    Projet × String :=
  let changement : Changement := { description := description, version := p.version }
  let p2 : Projet :=
    { p with changements := p.changements ++ [changement], version := p.version + 1 }
  (p2, message_changement description p2.version)

/-- Recording a sequence of changes, oldest first. -/
def enregistrer_fold (p : Projet) (ds : List String) : Projet :=
  ds.foldl (fun acc d => (enregistrer_changement acc d).1) p

theorem enregistrer_fold_changements (ds : List String) :
    ∀ p : Projet,
      (enregistrer_fold p ds).changements.map (fun c => c.version)
          = p.changements.map (fun c => c.version)
              ++ List.range' p.version ds.length ∧
      (enregistrer_fold p ds).version = p.version + ds.length := by
  induction ds with
  | nil => intro p; simp [enregistrer_fold]
  | cons d ds ih =>
    intro p
    have step1 : enregistrer_fold p (d :: ds)
        = enregistrer_fold (enregistrer_changement p d).1 ds := rfl
    obtain ⟨h1, h2⟩ := ih (enregistrer_changement p d).1
    have hch : ((enregistrer_changement p d).1).changements
        = p.changements ++ [{ description := d, version := p.version }] := rfl
    have hv : ((enregistrer_changement p d).1).version = p.version + 1 := rfl
    constructor
    · rw [step1, h1, hch, hv]
      simp [List.range'_succ, List.append_assoc]
    · rw [step1, h2, hv]
      simp only [List.length_cons]
      omega

/-- Claim C7 (confirmed): recording a change appends exactly one
`Changement` carrying the pre-increment version, increments the version
counter by exactly one, and notifies with the post-increment version; and
starting from a fresh project (version 1), the versions carried by the
successive change records are exactly `1, 2, 3, ...` — strictly increasing
from 1, never removed or renumbered. -/
theorem claim_C7_enregistrer_changement_spec :
    (∀ (p : Projet) (d : String),
      (enregistrer_changement p d).1.changements
          = p.changements ++ [{ description := d, version := p.version }] ∧
      (enregistrer_changement p d).1.version = p.version + 1 ∧
      (enregistrer_changement p d).2 = message_changement d (p.version + 1)) ∧
    (∀ ds : List String,
      (enregistrer_fold (projet_init "" "" 0 0 0) ds).changements.map
          (fun c => c.version) = List.range' 1 ds.length ∧
      (enregistrer_fold (projet_init "" "" 0 0 0) ds).version
          = 1 + ds.length) := by
  constructor
  · exact fun p d => ⟨rfl, rfl, rfl⟩
  · intro ds
    have h := enregistrer_fold_changements ds (projet_init "" "" 0 0 0)
    simpa [projet_init] using h

/-- Delivery failure of an abstract `NotificationStrategy.envoyer_message`
implementation (the spec's `DeliveryError`); the three concrete strategies
of the source never fail. -/
inductive DeliveryError where
  | unreachable
  deriving DecidableEq

/-- `NotificationContext.notifier` (lines 97-99): a plain `for` loop calling
`self.strategy.envoyer_message(message, destinataire)`.  The strategy is an
abstract method of the `NotificationStrategy` ABC, modelled as an arbitrary
function `envoyer`; an uncaught Python exception raised by a delivery is
modelled by `Except.error` and — per Python semantics, there being no `try`
in the loop — aborts the loop immediately.  The result is the list of
attempted deliveries `(message, recipient)` in loop order, together with
the propagated exception, if any. -/
def notifier (envoyer : String → Membre → Except DeliveryError String)
    (message : String) :
    List Membre → List (String × Membre) × Option DeliveryError
  | [] => ([], none)
  | destinataire :: rest =>
    match envoyer message destinataire with
    | .ok _ =>
      ((message, destinataire) :: (notifier envoyer message rest).1,
        (notifier envoyer message rest).2)
    | .error e => ([(message, destinataire)], some e)

def membreA : Membre := { nom := "a", role := "" }

def membreB : Membre := { nom := "b", role := "" }

def membreC : Membre := { nom := "c", role := "" }

/-- A strategy whose delivery raises for recipient `b` and succeeds
otherwise. -/
def envoyerFailB : String → Membre → Except DeliveryError String :=
  fun message destinataire =>
    if destinataire.nom = "b" then .error .unreachable else .ok message

/-- A strategy that always succeeds (the behavior of the three concrete
strategies of the source). -/
def envoyerOk : String → Membre → Except DeliveryError String :=
  fun message _ => .ok message

/-- Claim C8 counterexample: broadcasting to the 3 recipients a, b, c with
a strategy that fails on b attempts only 2 deliveries, not 3, and the
failure propagates immediately instead of being collected. -/
theorem claim_C8_cex_failure_aborts_fanout :
    (notifier envoyerFailB "m" [membreA, membreB, membreC]).1
        = [("m", membreA), ("m", membreB)] ∧
    (notifier envoyerFailB "m" [membreA, membreB, membreC]).1.length ≠ 3 ∧
    (notifier envoyerFailB "m" [membreA, membreB, membreC]).2
        = some DeliveryError.unreachable := by
  refine ⟨rfl, by decide, rfl⟩

/-- Claim C8 (amended): broadcasting delivers the same message to the
recipients sequentially in the given order; when no delivery fails exactly
N deliveries are attempted; but when delivery to some recipient raises, the
exception propagates immediately — the recipients before it were attempted
in order, the failing recipient was attempted, and the recipients after it
are never attempted (failures are not collected). -/
theorem claim_C8_sequential_delivery :
    ∀ (envoyer : String → Membre → Except DeliveryError String)
      (message : String) (destinataires : List Membre),
      ((notifier envoyer message destinataires).2 = none →
        (notifier envoyer message destinataires).1
            = destinataires.map (fun d => (message, d))) ∧
      (∀ e, (notifier envoyer message destinataires).2 = some e →
        ∃ pre dk post, destinataires = pre ++ dk :: post ∧
          (∀ x ∈ pre, ∃ s, envoyer message x = .ok s) ∧
          envoyer message dk = .error e ∧
          (notifier envoyer message destinataires).1
              = pre.map (fun d => (message, d)) ++ [(message, dk)]) := by
  intro envoyer message ds
  induction ds with
  | nil =>
    refine ⟨fun _ => rfl, fun e h => ?_⟩
    simp [notifier] at h
  | cons d ds ih =>
    cases hd : envoyer message d with
    | ok s =>
      constructor
      · intro h
        have h2 : (notifier envoyer message ds).2 = none := by
          simpa [notifier, hd] using h
        simp [notifier, hd, ih.1 h2]
      · intro e h
        have h2 : (notifier envoyer message ds).2 = some e := by
          simpa [notifier, hd] using h
        obtain ⟨pre, dk, post, hsplit, hpre, hdk, hlog⟩ := ih.2 e h2
        refine ⟨d :: pre, dk, post, by rw [hsplit, List.cons_append], ?_, hdk, ?_⟩
        · intro x hx
          rcases List.mem_cons.mp hx with rfl | hx
          · exact ⟨s, hd⟩
          · exact hpre x hx
        · simp [notifier, hd, hlog]
    | error e0 =>
      constructor
      · intro h
        simp [notifier, hd] at h
      · intro e h
        have h2 : some e0 = some e := by
          rw [← h]
        have he : e0 = e := Option.some.inj h2
        subst he
        refine ⟨[], d, ds, rfl, ?_, hd, by simp [notifier, hd]⟩
        intro x hx
        cases hx

/-- Claim C8 witness: instantiating the no-failure part at a concrete
2-recipient broadcast. -/
theorem claim_C8_witness :
    (notifier envoyerOk "m" [membreA, membreB]).1
        = [("m", membreA), ("m", membreB)] :=
  (claim_C8_sequential_delivery envoyerOk "m" [membreA, membreB]).1 rfl

/-- Heap and project for the C9 theorems: one dependency-free task owned by
the project. -/
def envSolo : Env := [(0, mkTache 0 7 [])]

def projetSolo : Projet := { projet_init "" "" 0 0 0 with taches := [0] }

/-- Claim C9 counterexample: running `calculer_chemin_critique` on a
concrete project modifies the project state — the computed path is stored
into `self.chemin_critique` by the method itself (line 182), so the method
is not a pure read. -/
theorem claim_C9_cex_state_modified :
    calculer_chemin_critique_projet envSolo 2 projetSolo
        = some (.ok { projetSolo with chemin_critique := [0] }) ∧
    ({ projetSolo with chemin_critique := [0] } : Projet).chemin_critique
        ≠ projetSolo.chemin_critique := by
  refine ⟨rfl, by decide⟩

/-- Claim C9 (amended): the method performs exactly one state change —
storing the computed critical path in `self.chemin_critique`; the task
list, the team, the version counter, the budget, the risks, milestones,
change log and notification context are all left unchanged, and no
notification is sent. -/
theorem claim_C9_only_chemin_critique_updated :
    ∀ (env : Env) (fuel : Nat) (p q : Projet),
      calculer_chemin_critique_projet env fuel p = some (.ok q) →
      q.nom = p.nom ∧ q.description = p.description ∧
      q.date_debut = p.date_debut ∧ q.date_fin = p.date_fin ∧
      q.budget = p.budget ∧ q.taches = p.taches ∧ q.equipe = p.equipe ∧
      q.risques = p.risques ∧ q.jalons = p.jalons ∧ q.version = p.version ∧
      q.changements = p.changements ∧
      q.notification_context = p.notification_context ∧
      calculer_chemin_critique env fuel p.taches
          = some (.ok q.chemin_critique) := by
  intro env fuel p q h
  unfold calculer_chemin_critique_projet at h
  cases hc : calculer_chemin_critique env fuel p.taches with
  | none => rw [hc] at h; simp at h
  | some r =>
    cases r with
    | error e => rw [hc] at h; simp at h
    | ok path =>
      rw [hc] at h
      simp only [Option.some.injEq, Except.ok.injEq] at h
      subst h
      exact ⟨rfl, rfl, rfl, rfl, rfl, rfl, rfl, rfl, rfl, rfl, rfl, rfl, rfl⟩

/-- Claim C9 witness: instantiating the frame theorem on the concrete
one-task project. -/
theorem claim_C9_witness :
    ({ projetSolo with chemin_critique := [0] } : Projet).taches
        = projetSolo.taches ∧
    ({ projetSolo with chemin_critique := [0] } : Projet).version
        = projetSolo.version :=
  ⟨(claim_C9_only_chemin_critique_updated envSolo 2 projetSolo
      { projetSolo with chemin_critique := [0] } rfl).2.2.2.2.2.1,
   (claim_C9_only_chemin_critique_updated envSolo 2 projetSolo
      { projetSolo with chemin_critique := [0] } rfl).2.2.2.2.2.2.2.2.2.1⟩

/-- Heap for claim C3: task 0 depends on itself (a dependency cycle of
length 1); task 1 is an unrelated dependency-free task. -/
def envCycle : Env := [(0, mkTache 0 4 [0]), (1, mkTache 0 5 [])]

/-- The Python call `calculer_chemin_critique` terminates on the given
project: some fuel bound suffices for the traversal to finish (either
returning a path or raising an exception). -/
def calc_terminates (env : Env) (taches : List Nat) : Prop :=
  ∃ fuel res, calculer_chemin_critique env fuel taches = some res

theorem findFuel_cycle_stuck :
    ∀ fuel : Nat,
      (∀ memo : Memo, memoLookup 0 memo = none →
        findFuel envCycle fuel (.task 0) memo = (none, memo)) ∧
      (∀ (memo : Memo) (ml : Int) (mp : List Nat), memoLookup 0 memo = none →
        findFuel envCycle fuel (.deps 0 [0] ml mp) memo = (none, memo)) := by
  intro fuel
  induction fuel with
  | zero => exact ⟨fun memo _ => rfl, fun memo ml mp _ => rfl⟩
  | succ fuel ih =>
    constructor
    · intro memo hm
      show findFuel envCycle (fuel + 1) (.task 0) memo = (none, memo)
      simp only [findFuel, hm, envCycle, envLookup, mkTache]
      exact ih.2 memo 0 [] hm
    · intro memo ml mp hm
      show findFuel envCycle (fuel + 1) (.deps 0 [0] ml mp) memo = (none, memo)
      simp only [findFuel, ih.1 memo hm]

theorem cycle_calc_none (fuel : Nat) :
    calculer_chemin_critique envCycle fuel [1, 0] = none ∧
    (all_paths_aux envCycle fuel [1, 0] []).1 = none ∧
    (1 ≤ fuel →
      memoLookup 1 (all_paths_aux envCycle fuel [1, 0] []).2
          = some ((0 : Int), [1])) := by
  cases fuel with
  | zero =>
    refine ⟨rfl, rfl, ?_⟩
    intro h
    exact absurd h (by decide)
  | succ fuel =>
    have h1 : find_longest_path envCycle (fuel + 1) 1 []
        = (some ((0 : Int), [1]), [(1, ((0 : Int), [1]))]) := by
      simp [find_longest_path, findFuel, memoLookup, envLookup, envCycle, mkTache]
    have h0 : find_longest_path envCycle (fuel + 1) 0 [(1, ((0 : Int), [1]))]
        = (none, [(1, ((0 : Int), [1]))]) :=
      (findFuel_cycle_stuck (fuel + 1)).1 [(1, ((0 : Int), [1]))] (by decide)
    have haux : all_paths_aux envCycle (fuel + 1) [1, 0] []
        = (none, [(1, ((0 : Int), [1]))]) := by
      simp only [all_paths_aux, h1, h0]
    refine ⟨?_, ?_, ?_⟩
    · simp only [calculer_chemin_critique, haux]
    · simp only [haux]
    · intro _
      simp only [haux]
      decide

/-- Claim C3 counterexample: on a project containing a dependency cycle
(task 0 depends on itself) the critical-path computation never terminates:
no fuel bound suffices, so in particular it does not terminate by raising a
`CyclicDependencyError` (the source defines no such exception and performs
no cycle detection; in CPython the unbounded recursion eventually hits the
interpreter recursion limit). -/
theorem claim_C3_cex_cycle_never_terminates :
    ¬ calc_terminates envCycle [1, 0] := by
  rintro ⟨fuel, res, h⟩
  rw [(cycle_calc_none fuel).1] at h
  exact Option.noConfusion h

/-- Claim C3 (amended): on a cyclic dependency graph the computation fails
to terminate — every recursion bound is exhausted and no result or
exception value is ever produced; the memo entries of unrelated tasks
completed earlier in the same invocation (here task 1) are still present,
uncorrupted, at the point where the fuel runs out. -/
theorem claim_C3_cycle_diverges_memo_intact :
    ∀ fuel : Nat,
      calculer_chemin_critique envCycle fuel [1, 0] = none ∧
      (all_paths_aux envCycle fuel [1, 0] []).1 = none ∧
      (1 ≤ fuel →
        memoLookup 1 (all_paths_aux envCycle fuel [1, 0] []).2
            = some ((0 : Int), [1])) :=
  fun fuel => cycle_calc_none fuel

/-- Claim C3 witness: the amended theorem instantiated at fuel 3. -/
theorem claim_C3_witness :
    calculer_chemin_critique envCycle 3 [1, 0] = none ∧
    memoLookup 1 (all_paths_aux envCycle 3 [1, 0] []).2
        = some ((0 : Int), [1]) :=
  ⟨(claim_C3_cycle_diverges_memo_intact 3).1,
   (claim_C3_cycle_diverges_memo_intact 3).2.2 (by decide)⟩

/-- `y` is the first maximal element of `l` (compared by first component):
`l` splits as `l1 ++ y :: l2` with every element before `y` strictly
smaller and every element after `y` no larger. -/
def IsFirstMax (l : List (Int × List Nat)) (y : Int × List Nat) : Prop :=
  ∃ l1 l2, l = l1 ++ y :: l2 ∧ (∀ z ∈ l1, z.1 < y.1) ∧ (∀ z ∈ l2, z.1 ≤ y.1)

theorem isFirstMax_le {l : List (Int × List Nat)} {y : Int × List Nat}
    (h : IsFirstMax l y) : ∀ z ∈ l, z.1 ≤ y.1 := by
  obtain ⟨l1, l2, rfl, h1, h2⟩ := h
  intro z hz
  rcases List.mem_append.mp hz with hz | hz
  · exact le_of_lt (h1 z hz)
  · rcases List.mem_cons.mp hz with rfl | hz
    · exact le_refl _
    · exact h2 z hz

theorem isFirstMax_mem {l : List (Int × List Nat)} {y : Int × List Nat}
    (h : IsFirstMax l y) : y ∈ l := by
  obtain ⟨l1, l2, rfl, _, _⟩ := h
  exact List.mem_append.mpr (Or.inr (List.mem_cons_self _ _))

theorem pyfold_max_first :
    ∀ (xs : List (Int × List Nat)) (acc : Int × List Nat),
      IsFirstMax (acc :: xs) (pyfold_max acc xs) := by
  intro xs
  induction xs with
  | nil =>
    intro acc
    refine ⟨[], [], rfl, ?_, ?_⟩ <;> simp
  | cons x xs ih =>
    intro acc
    by_cases hgt : x.1 > acc.1
    · obtain ⟨l1, l2, heq, h1, h2⟩ := ih x
      have hxle : x.1 ≤ (pyfold_max x xs).1 :=
        isFirstMax_le (ih x) x (List.mem_cons_self x xs)
      simp only [pyfold_max, if_pos hgt]
      refine ⟨acc :: l1, l2, ?_, ?_, h2⟩
      · rw [List.cons_append, ← heq]
      · intro z hz
        rcases List.mem_cons.mp hz with rfl | hz
        · exact lt_of_lt_of_le hgt hxle
        · exact h1 z hz
    · have hxle : x.1 ≤ acc.1 := le_of_not_lt hgt
      obtain ⟨l1, l2, heq, h1, h2⟩ := ih acc
      simp only [pyfold_max, if_neg hgt]
      cases l1 with
      | nil =>
        simp only [List.nil_append] at heq
        injection heq with hacc hxs
        rw [← hacc] at h2 ⊢
        refine ⟨[], x :: xs, by simp, ?_, ?_⟩
        · simp
        · intro z hz
          rcases List.mem_cons.mp hz with rfl | hz
          · exact hxle
          · exact h2 z (hxs ▸ hz)
      | cons a t =>
        simp only [List.cons_append] at heq
        injection heq with hacc hxs
        subst hacc
        have har : acc.1 < (pyfold_max acc xs).1 :=
          h1 acc (List.mem_cons_self acc t)
        refine ⟨acc :: x :: t, l2, ?_, ?_, h2⟩
        · conv_lhs => rw [hxs]
          rfl
        · intro z hz
          rcases List.mem_cons.mp hz with rfl | hz
          · exact har
          · rcases List.mem_cons.mp hz with rfl | hz
            · exact lt_of_le_of_lt hxle har
            · exact h1 z (List.mem_cons_of_mem acc hz)

theorem findFuel_deps_memoized (env : Env) (tache : Tache) (tid : Nat) :
    ∀ (ds : List Nat) (rs : List (Int × List Nat)) (memo : Memo)
      (ml : Int) (mp : List Nat) (fuel : Nat),
      envLookup tid env = some tache →
      List.Forall₂ (fun d r => memoLookup d memo = some r) ds rs →
      ds.length + 1 ≤ fuel →
      findFuel env fuel (.deps tid ds ml mp) memo
          = (some ((pyfold_max (ml, mp) rs).1
                      + (tache.date_fin - tache.date_debut),
                   (pyfold_max (ml, mp) rs).2 ++ [tid]),
             (tid, ((pyfold_max (ml, mp) rs).1
                      + (tache.date_fin - tache.date_debut),
                    (pyfold_max (ml, mp) rs).2 ++ [tid])) :: memo) := by
  intro ds rs memo ml mp fuel henv hf hfuel
  induction hf generalizing ml mp fuel with
  | nil =>
    cases fuel with
    | zero => exact absurd hfuel (by simp)
    | succ fuel =>
      simp only [findFuel, henv, pyfold_max]
  | cons hd htl ih =>
    rename_i d r ds rs
    obtain ⟨rl, rp⟩ := r
    cases fuel with
    | zero => exact absurd hfuel (by simp)
    | succ fuel =>
      have hfuel2 : ds.length + 1 ≤ fuel := by
        simp only [List.length_cons] at hfuel
        omega
      have hfind : findFuel env fuel (.task d) memo = (some (rl, rp), memo) := by
        cases fuel with
        | zero => exact absurd hfuel2 (by simp)
        | succ fuel => simp only [findFuel, hd]
      have hpy : pyfold_max (ml, mp) ((rl, rp) :: rs)
          = if rl > ml then pyfold_max (rl, rp) rs
            else pyfold_max (ml, mp) rs := rfl
      simp only [findFuel, hfind, hpy]
      by_cases hgt : rl > ml
      · rw [if_pos hgt, if_pos hgt, ih rl rp fuel hfuel2]
      · rw [if_neg hgt, if_neg hgt, ih ml mp fuel hfuel2]

/-- Claim C6 counterexample: task 2 declares dependencies `[0, 1]`, both
memoized with length 0 (they have no dependencies).  The claim predicts
that the path of the first maximal dependency (task 0, path `[0]`) is
selected, so task 2's memoized path would be `[0, 2]`; the code selects no
dependency path at all (the strict `>` never fires against the initial
accumulator `(0, [])`) and memoizes path `[2]`. -/
theorem claim_C6_cex_zero_max_drops_dep_path :
    (find_longest_path [(0, mkTache 0 3 []), (1, mkTache 0 4 []),
        (2, mkTache 0 6 [0, 1])] 9 2 []).1 = some ((6 : Int), [2]) ∧
    memoLookup 2 (find_longest_path [(0, mkTache 0 3 []), (1, mkTache 0 4 []),
        (2, mkTache 0 6 [0, 1])] 9 2 []).2 = some ((6 : Int), [2]) ∧
    ([2] : List Nat) ≠ [0, 2] := by
  refine ⟨rfl, rfl, by decide⟩

/-- Claim C6 (amended): (1) with every declared dependency already
memoized, the `for dep` loop of `find_longest_path` computes exactly the
`pyfold_max` accumulation started at the initial accumulator `(0, [])` and
then completes the task's memo entry from it; (2) `pyfold_max` selects the
FIRST maximal element of initial-accumulator-followed-by-results — so ties
among dependencies of positive maximal length go to the first such
dependency in declared order, but when the maximal dependency length is 0
(or negative) the initial `(0, [])` wins and no dependency path is
selected; (3) `max(all_paths, key=lambda x: x[0])` returns the first
maximal memoized pair, i.e. project-wide ties go to the first task in
insertion order. -/
theorem claim_C6_first_max_selection :
    (∀ (env : Env) (tache : Tache) (tid : Nat) (ds : List Nat)
        (rs : List (Int × List Nat)) (memo : Memo) (fuel : Nat),
      envLookup tid env = some tache →
      List.Forall₂ (fun d r => memoLookup d memo = some r) ds rs →
      ds.length + 1 ≤ fuel →
      findFuel env fuel (.deps tid ds 0 []) memo
          = (some ((pyfold_max (0, []) rs).1
                      + (tache.date_fin - tache.date_debut),
                   (pyfold_max (0, []) rs).2 ++ [tid]),
             (tid, ((pyfold_max (0, []) rs).1
                      + (tache.date_fin - tache.date_debut),
                    (pyfold_max (0, []) rs).2 ++ [tid])) :: memo)) ∧
    (∀ (acc : Int × List Nat) (xs : List (Int × List Nat)),
      IsFirstMax (acc :: xs) (pyfold_max acc xs)) ∧
    (∀ (x : Int × List Nat) (xs : List (Int × List Nat)),
      pymax_by_fst (x :: xs) = some (pyfold_max x xs)) :=
  ⟨fun env tache tid ds rs memo fuel henv hf hfuel =>
      findFuel_deps_memoized env tache tid ds rs memo 0 [] fuel henv hf hfuel,
   fun acc xs => pyfold_max_first xs acc,
   fun _ _ => rfl⟩

/-- Claim C6 witness: the dependency-loop part instantiated on a concrete
task with two zero-length memoized dependencies. -/
theorem claim_C6_witness :
    findFuel [(2, mkTache 0 4 [0, 1])] 3 (.deps 2 [0, 1] 0 [])
        [(0, ((0 : Int), [0])), (1, ((0 : Int), [1]))]
      = (some ((4 : Int), [2]),
         (2, ((4 : Int), [2]))
           :: [(0, ((0 : Int), [0])), (1, ((0 : Int), [1]))]) :=
  claim_C6_first_max_selection.1 [(2, mkTache 0 4 [0, 1])] (mkTache 0 4 [0, 1])
    2 [0, 1] [((0 : Int), [0]), ((0 : Int), [1])]
    [(0, ((0 : Int), [0])), (1, ((0 : Int), [1]))] 3 rfl
    (List.Forall₂.cons rfl (List.Forall₂.cons rfl List.Forall₂.nil))
    (by decide)

/-- Invariant of the memo dict: every memoized pair's path is non-empty
and ends with the task it was computed for. -/
def MemoPathInv (memo : Memo) : Prop :=
  ∀ tid l p, memoLookup tid memo = some (l, p) → p ≠ [] ∧ p.getLast? = some tid

theorem memoPathInv_nil : MemoPathInv [] := by
  intro tid l p h
  simp [memoLookup] at h

theorem memoPathInv_cons {memo : Memo} {tid : Nat} {l : Int} {p : List Nat}
    (hm : MemoPathInv memo) (hne : p ≠ []) (hlast : p.getLast? = some tid) :
    MemoPathInv ((tid, (l, p)) :: memo) := by
  intro tid2 l2 p2 h
  by_cases he : tid = tid2
  · subst he
    simp [memoLookup] at h
    obtain ⟨h1, h2⟩ := h
    subst h2
    exact ⟨hne, hlast⟩
  · simp only [memoLookup, if_neg he] at h
    exact hm tid2 l2 p2 h

theorem findFuel_path_inv (env : Env) :
    ∀ (fuel : Nat) (mode : FindMode) (memo : Memo), MemoPathInv memo →
      MemoPathInv (findFuel env fuel mode memo).2 ∧
      (∀ l p, (findFuel env fuel mode memo).1 = some (l, p) →
        p ≠ [] ∧ p.getLast? = some mode.tid) := by
  intro fuel
  induction fuel with
  | zero =>
    intro mode memo hm
    exact ⟨hm, fun l p h => by simp [findFuel] at h⟩
  | succ fuel ih =>
    intro mode memo hm
    cases mode with
    | task tid =>
      cases hml : memoLookup tid memo with
      | some r =>
        obtain ⟨rl, rp⟩ := r
        constructor
        · simp only [findFuel, hml]
          exact hm
        · simp only [findFuel, hml]
          intro l p h
          simp only [Option.some.injEq, Prod.mk.injEq] at h
          obtain ⟨h1, h2⟩ := h
          subst h2
          exact hm tid rl rp hml
      | none =>
        cases henv : envLookup tid env with
        | none =>
          constructor
          · simp only [findFuel, hml, henv]
            exact hm
          · simp only [findFuel, hml, henv]
            intro l p h
            simp at h
        | some tache =>
          by_cases hdep : tache.dependances = []
          · constructor
            · simp only [findFuel, hml, henv, if_pos hdep]
              exact memoPathInv_cons hm (by simp) (by simp)
            · simp only [findFuel, hml, henv, if_pos hdep]
              intro l p h
              simp only [Option.some.injEq, Prod.mk.injEq] at h
              obtain ⟨h1, h2⟩ := h
              subst h2
              exact ⟨by simp, by simp [FindMode.tid]⟩
          · have h2 := ih (.deps tid tache.dependances 0 []) memo hm
            constructor
            · simp only [findFuel, hml, henv, if_neg hdep]
              exact h2.1
            · simp only [findFuel, hml, henv, if_neg hdep]
              exact h2.2
    | deps tid rest ml mp =>
      cases rest with
      | nil =>
        cases henv : envLookup tid env with
        | none =>
          constructor
          · simp only [findFuel, henv]
            exact hm
          · simp only [findFuel, henv]
            intro l p h
            simp at h
        | some tache =>
          constructor
          · simp only [findFuel, henv]
            exact memoPathInv_cons hm (by simp) (by simp [List.getLast?_concat])
          · simp only [findFuel, henv]
            intro l p h
            simp only [Option.some.injEq, Prod.mk.injEq] at h
            obtain ⟨h1, h2⟩ := h
            subst h2
            exact ⟨by simp, by simp [List.getLast?_concat, FindMode.tid]⟩
      | cons d rest =>
        cases hcall : findFuel env fuel (.task d) memo with
        | mk o memo2 =>
          have hio := ih (.task d) memo hm
          rw [hcall] at hio
          cases o with
          | none =>
            constructor
            · simp only [findFuel, hcall]
              exact hio.1
            · simp only [findFuel, hcall]
              intro l p h
              simp at h
          | some r =>
            obtain ⟨rl, rp⟩ := r
            by_cases hgt : rl > ml
            · have h3 := ih (.deps tid rest rl rp) memo2 hio.1
              constructor
              · simp only [findFuel, hcall, if_pos hgt]
                exact h3.1
              · simp only [findFuel, hcall, if_pos hgt]
                exact h3.2
            · have h3 := ih (.deps tid rest ml mp) memo2 hio.1
              constructor
              · simp only [findFuel, hcall, if_neg hgt]
                exact h3.1
              · simp only [findFuel, hcall, if_neg hgt]
                exact h3.2

theorem forall2_mem_right {α β : Type} {R : α → β → Prop} :
    ∀ {as : List α} {bs : List β}, List.Forall₂ R as bs →
      ∀ b ∈ bs, ∃ a ∈ as, R a b := by
  intro as bs h
  induction h with
  | nil =>
    intro b hb
    cases hb
  | cons hr ht ih =>
    rename_i a b as2 bs2
    intro b2 hb2
    rcases List.mem_cons.mp hb2 with rfl | hb2
    · exact ⟨a, List.mem_cons_self a as2, hr⟩
    · obtain ⟨a2, ha2, hr2⟩ := ih b2 hb2
      exact ⟨a2, List.mem_cons_of_mem a ha2, hr2⟩

theorem all_paths_aux_inv (env : Env) (fuel : Nat) :
    ∀ (taches : List Nat) (memo : Memo), MemoPathInv memo →
      MemoPathInv (all_paths_aux env fuel taches memo).2 ∧
      (∀ rs, (all_paths_aux env fuel taches memo).1 = some rs →
        List.Forall₂ (fun t r => r.2 ≠ [] ∧ r.2.getLast? = some t) taches rs) := by
  intro taches
  induction taches with
  | nil =>
    intro memo hm
    refine ⟨hm, ?_⟩
    intro rs h
    simp only [all_paths_aux, Option.some.injEq] at h
    subst h
    exact List.Forall₂.nil
  | cons t ts ih =>
    intro memo hm
    have hf := findFuel_path_inv env fuel (.task t) memo hm
    cases hcall : findFuel env fuel (.task t) memo with
    | mk o memo2 =>
      rw [hcall] at hf
      cases o with
      | none =>
        constructor
        · simp only [all_paths_aux, find_longest_path, hcall]
          exact hf.1
        · simp only [all_paths_aux, find_longest_path, hcall]
          intro rs h
          simp at h
      | some r =>
        have hr : r.2 ≠ [] ∧ r.2.getLast? = some t := hf.2 r.1 r.2 rfl
        have haux := ih memo2 hf.1
        cases haux2 : all_paths_aux env fuel ts memo2 with
        | mk o2 memo3 =>
          rw [haux2] at haux
          cases o2 with
          | none =>
            constructor
            · simp only [all_paths_aux, find_longest_path, hcall, haux2]
              exact haux.1
            · simp only [all_paths_aux, find_longest_path, hcall, haux2]
              intro rs h
              simp at h
          | some rs2 =>
            constructor
            · simp only [all_paths_aux, find_longest_path, hcall, haux2]
              exact haux.1
            · simp only [all_paths_aux, find_longest_path, hcall, haux2]
              intro rs h
              simp only [Option.some.injEq] at h
              subst h
              exact List.Forall₂.cons hr (haux.2 rs2 rfl)

/-- Claim C10 (confirmed): whenever `calculer_chemin_critique` returns a
path, every memoized (length, path) pair has a non-empty path ending with
the very task it was computed for, and the returned critical path is
non-empty and ends with one of the project's registered tasks. -/
theorem claim_C10_memoized_path_ends_at_its_task :
    ∀ (env : Env) (fuel : Nat) (taches : List Nat) (path : List Nat),
      calculer_chemin_critique env fuel taches = some (.ok path) →
      (∀ tid l p,
        memoLookup tid (all_paths_aux env fuel taches []).2 = some (l, p) →
        p ≠ [] ∧ p.getLast? = some tid) ∧
      path ≠ [] ∧ ∃ t ∈ taches, path.getLast? = some t := by
  intro env fuel taches path h
  have hinv := all_paths_aux_inv env fuel taches [] memoPathInv_nil
  cases haux : all_paths_aux env fuel taches [] with
  | mk o memo =>
    rw [haux] at hinv
    cases o with
    | none =>
      unfold calculer_chemin_critique at h
      rw [haux] at h
      simp at h
    | some rs =>
      cases rs with
      | nil =>
        unfold calculer_chemin_critique at h
        rw [haux] at h
        simp [pymax_by_fst] at h
      | cons x xs =>
        have hmem : pyfold_max x xs ∈ x :: xs :=
          isFirstMax_mem (pyfold_max_first xs x)
        have hall := hinv.2 (x :: xs) rfl
        obtain ⟨t, ht, hrel⟩ := forall2_mem_right hall (pyfold_max x xs) hmem
        have hpath : path = (pyfold_max x xs).2 := by
          unfold calculer_chemin_critique at h
          rw [haux] at h
          simp only [pymax_by_fst, Option.some.injEq, Except.ok.injEq] at h
          exact h.symm
        refine ⟨fun tid l p hl => hinv.1 tid l p hl, ?_, ?_⟩
        · rw [hpath]
          exact hrel.1
        · rw [hpath]
          exact ⟨t, ht, hrel.2⟩

/-- Heap for the C10 witness: the two-task chain of the source's demo
(30-day task, then a 150-day task depending on it). -/
def envChain : Env := [(0, mkTache 0 30 []), (1, mkTache 31 181 [0])]

/-- Claim C10 witness: the invariant theorem instantiated on the concrete
two-task chain, whose computed critical path is `[1]`. -/
theorem claim_C10_witness :
    ([1] : List Nat) ≠ [] ∧
    ∃ t ∈ ([0, 1] : List Nat), ([1] : List Nat).getLast? = some t :=
  (claim_C10_memoized_path_ends_at_its_task envChain 5 [0, 1] [1] rfl).2
